import Mathlib

/-!
Verification of the college event app's registration, credential and
attendance-verification logic (src/app.py, src/qr_routes.py), shallowly
embedded over lists of characters and explicit state passing. Strings are
modelled as `List Char`; Python string methods (`strip`, `split`, dict
assignment) are given faithful counterparts below. Database rows become
structures, tables become lists, and each route handler that the claims
touch becomes a pure function from the store (plus its request inputs) to
a result and an updated store.
-/

namespace CollegeEventApp

/-! ## Python string primitives -/

/-- The whitespace class of Python's `str.strip()` (ASCII part). -/
def isPySpace (c : Char) : Bool :=
  c == ' ' || c == '\t' || c == '\n' || c == '\r' || c == '\x0B' || c == '\x0C'

/-- Leading-whitespace removal, as in Python `lstrip`. -/
def pyStripLeft (s : List Char) : List Char := s.dropWhile isPySpace

/-- Trailing-whitespace removal, as in Python `rstrip`. -/
def pyStripRight (s : List Char) : List Char := (s.reverse.dropWhile isPySpace).reverse

/-- Python `str.strip()`: drop whitespace from both ends. -/
def pyStrip (s : List Char) : List Char := pyStripRight (pyStripLeft s)

/-- Python `s.split('\n')`: every run between newlines, keeping empties. -/
def splitNl : List Char → List (List Char)
  | [] => [[]]
  | c :: cs =>
    if c = '\n' then [] :: splitNl cs
    else
      match splitNl cs with
      | [] => [[c]]
      | l :: ls => (c :: l) :: ls

/-- Python `line.split(sep, 1)` under the guard `if sep in line`: the parts
before and after the first occurrence of `sep`, or `none` when `sep` does
not occur. -/
def splitFirst (sep : Char) : List Char → Option (List Char × List Char)
  | [] => none
  | c :: cs =>
    if c = sep then some ([], cs)
    else (splitFirst sep cs).map (fun p => (c :: p.1, p.2))

/-- Python dict assignment `d[k] = v`: replace in place when the key is
present, append otherwise (keys stay unique, last write wins). -/
def dictInsert (d : List (List Char × List Char)) (k v : List Char) :
    List (List Char × List Char) :=
  if d.any (fun p => p.1 == k) then d.map (fun p => if p.1 == k then (k, v) else p)
  else d ++ [(k, v)]

/-- Python `d.get(k)` over the association list kept by `dictInsert`. -/
def dictGet (d : List (List Char × List Char)) (k : List Char) : Option (List Char) :=
  (d.find? (fun p => p.1 == k)).map (fun p => p.2)

/-- The decimal digit character for `n % 10`. -/
def digitChar (n : Nat) : Char := Char.ofNat (48 + n % 10)

/-- Fuelled decimal rendering helper: prepends the digits of `n` to `acc`. -/
def natCharsAux : Nat → Nat → List Char → List Char
  | 0, _, acc => acc
  | fuel + 1, n, acc =>
    if n < 10 then digitChar n :: acc
    else natCharsAux fuel (n / 10) (digitChar n :: acc)

/-- Decimal rendering of a natural number, as Python's f-string formats
the integer `event_id`. -/
def natChars (n : Nat) : List Char := natCharsAux (n + 1) n []

/-- Python `str.lower()` (ASCII). -/
def pyLower (s : List Char) : List Char := s.map Char.toLower

/-! ## Data model (src/app.py `check_and_init_database`)

The tables `students`, `events` and `registrations`; the columns the claims
never read (passwords, emails, creation timestamps) are omitted. Dates and
times are carried as their displayed strings. -/

structure Student where
  id : Nat
  student_id : List Char
  name : List Char
  department : List Char
  year : List Char
deriving DecidableEq

structure Event where
  id : Nat
  title : List Char
  date : List Char
  time : List Char
  venue : List Char
  organizer : List Char
  capacity : Nat
  registered_count : Nat
deriving DecidableEq

structure Registration where
  student_id : Nat
  event_id : Nat
  qr_code_path : List Char
  checkin_time : Option (List Char)
  attended : Bool
deriving DecidableEq

/-- The persistent store: the three tables the claims touch. -/
structure DB where
  students : List Student
  events : List Event
  registrations : List Registration
deriving DecidableEq

/-- The row filter of `WHERE student_id = %s AND event_id = %s`. -/
def pairMatch (sid eid : Nat) (r : Registration) : Bool :=
  r.student_id == sid && r.event_id == eid

/-! ## Credential encoder (src/app.py lines 436-444)

The `qr_data` f-string of `register_event`, a triple-quoted literal whose
line breaks are written here as explicit `"\n"` chunks, stripped as in the
source. The rendering of this payload as a PNG image and its base64 data
URI are abstracted away: the payload text itself is what the store keeps
and what the scanner hands back. -/

def encodeCredential (student : Student) (event : Event) (event_id : Nat) : List Char :=
  pyStrip ("\n".data ++ "Event: ".data ++ event.title
    ++ "\n".data ++ "Student: ".data ++ student.name
    ++ "\n".data ++ "Student ID: ".data ++ student.student_id
    ++ "\n".data ++ "Event Date: ".data ++ event.date
    ++ "\n".data ++ "Event Time: ".data ++ event.time
    ++ "\n".data ++ "Venue: ".data ++ event.venue
    ++ "\n".data ++ "Registration ID: ".data ++ student.student_id ++ "_".data
         ++ natChars event_id
    ++ "\n        ".data)

/-! ## Credential parser (src/app.py lines 542-553, src/qr_routes.py lines 29-41) -/

def keyEvent : List Char := "Event".data

def keyStudentId : List Char := "Student ID".data

/-- The `qr_dict` built by the verification routes: strip the payload,
split on newlines, split each line on its first colon, strip key and
value, and assign into a dict; lines without a colon are skipped. -/
def buildDict (qr_data : List Char) : List (List Char × List Char) :=
  (splitNl (pyStrip qr_data)).foldl
    (fun acc line =>
      match splitFirst ':' line with
      | some kv => dictInsert acc (pyStrip kv.1) (pyStrip kv.2)
      | none => acc) []

/-- `qr_dict.get(key, '')`. -/
def credLookup (d : List (List Char × List Char)) (k : List Char) : List Char :=
  (dictGet d k).getD []

/-- The pair a well-formed credential resolves to. -/
structure Credential where
  event_title : List Char
  student_id_str : List Char
deriving DecidableEq

/-- The parsing portion of the verification routes: `none` models the
`Invalid QR code format` answer, returned exactly when the `Event` or
`Student ID` entry is missing or empty. -/
def parseCredential (qr_data : List Char) : Option Credential :=
  let d := buildDict qr_data
  let event_title := credLookup d keyEvent
  let student_id_str := credLookup d keyStudentId
  if event_title.isEmpty || student_id_str.isEmpty then none
  else some ⟨event_title, student_id_str⟩

/-! ## Attendance verification (src/app.py `staff_verify`, src/qr_routes.py `qr_verify`) -/

inductive VerifyResult where
  | noQrData
  | invalidFormat
  | studentNotFound
  | eventNotFound
  | notRegistered
  | alreadyCheckedIn (student_name : List Char)
  | checkedIn (student_name student_id event_title checkin_time : List Char)
deriving DecidableEq

/-- The lookup-and-update body shared verbatim by `staff_verify` and
`qr_verify` once the credential is parsed: the student row is fetched by
external identifier and checked first, then the event row by title (the
`fetch=True` cursor keeps the first matching row), then the registration
row; an attended registration answers `alreadyCheckedIn` with the
student's name, otherwise the matching registration rows get
`attended = TRUE, checkin_time = now`. -/
def verifyLookup (db : DB) (event_title student_id_str : List Char) (now : List Char) :
    VerifyResult × DB :=
  match db.students.find? (fun s => s.student_id == student_id_str) with
  | none => (.studentNotFound, db)
  | some student =>
    match db.events.find? (fun e => e.title == event_title) with
    | none => (.eventNotFound, db)
    | some event =>
      match db.registrations.find? (pairMatch student.id event.id) with
      | none => (.notRegistered, db)
      | some registration =>
        if registration.attended then (.alreadyCheckedIn student.name, db)
        else
          (.checkedIn student.name student.student_id event.title now,
           { db with registrations := db.registrations.map (fun r =>
               if pairMatch student.id event.id r then
                 { r with attended := true, checkin_time := some now }
               else r) })

/-- `staff_verify` (and `qr_verify`) end to end: the empty-payload guard,
the parser, then the lookup body. -/
def staffVerify (db : DB) (qr_data : List Char) (now : List Char) : VerifyResult × DB :=
  if qr_data.isEmpty then (.noQrData, db)
  else
    match parseCredential qr_data with
    | none => (.invalidFormat, db)
    | some cred => verifyLookup db cred.event_title cred.student_id_str now

/-! ## Event registration (src/app.py `register_event`, lines 396-480) -/

inductive RegisterResult where
  | eventNotFound
  | eventFull
  | alreadyRegistered
  | studentNotFound
  | qrGenerationError
  | registered
deriving DecidableEq

/-- `register_event` for the logged-in student with internal id `sid`:
event fetched by id, the capacity guard, the duplicate-registration guard,
the student fetch, then inside `try`: credential encoding (`qrEncodeOk`
models whether the QR library call succeeds; on failure the handler's
`except` reports an error with nothing yet written), the INSERT of the
registration row, and the `registered_count` increment. -/
def registerEvent (db : DB) (sid : Nat) (event_id : Nat) (qrEncodeOk : Bool) :
    RegisterResult × DB :=
  match db.events.find? (fun e => e.id == event_id) with
  | none => (.eventNotFound, db)
  | some event =>
    if event.registered_count ≥ event.capacity then (.eventFull, db)
    else
      match db.registrations.find? (pairMatch sid event_id) with
      | some _ => (.alreadyRegistered, db)
      | none =>
        match db.students.find? (fun s => s.id == sid) with
        | none => (.studentNotFound, db)
        | some student =>
          if qrEncodeOk then
            let qr := encodeCredential student event event_id
            (.registered,
             { db with
                registrations := db.registrations ++ [⟨sid, event_id, qr, none, false⟩],
                events := db.events.map (fun e =>
                  if e.id == event_id then
                    { e with registered_count := e.registered_count + 1 }
                  else e) })
          else (.qrGenerationError, db)

/-! ## CSV export (src/app.py `export_csv` lines 1176-1213,
`export_event_csv` lines 908-950)

`csv.writer` with its defaults: comma delimiter, minimal quoting (a field
is quoted when it holds a comma, a quote or a line-terminator character,
with quotes doubled), rows terminated by CRLF. -/

def needsQuote (field : List Char) : Bool :=
  field.any (fun c => c == ',' || c == '"' || c == '\r' || c == '\n')

def csvQuote (field : List Char) : List Char :=
  '"' :: ((field.foldr (fun c acc => if c = '"' then '"' :: '"' :: acc else c :: acc) [])
    ++ ['"'])

def csvField (field : List Char) : List Char :=
  if needsQuote field then csvQuote field else field

/-- `",".join` of the rendered fields, as `csv.writer` delimits a row. -/
def sepJoin (sep : List Char) : List (List Char) → List Char
  | [] => []
  | [x] => x
  | x :: y :: xs => x ++ sep ++ sepJoin sep (y :: xs)

/-- One `writer.writerow(fields)` call. -/
def csvRow (fields : List (List Char)) : List Char :=
  sepJoin ",".data (fields.map csvField) ++ "\r\n".data

/-- A row of the all-attendance query feeding `export_csv`. -/
structure AttendanceRecord where
  student_name : List Char
  student_id : List Char
  department : List Char
  year : List Char
  event_title : List Char
  event_date : List Char
  event_time : List Char
  venue : List Char
  registration_time : List Char
  checkin_time : List Char
deriving DecidableEq

def attendanceHeader : List (List Char) :=
  ["Student Name".data, "Student ID".data, "Department".data, "Year".data,
   "Event Title".data, "Event Date".data, "Event Time".data, "Venue".data,
   "Registration Time".data, "Check-in Time".data]

def attendanceRow (r : AttendanceRecord) : List (List Char) :=
  [r.student_name, r.student_id, r.department, r.year, r.event_title,
   r.event_date, r.event_time, r.venue, r.registration_time, r.checkin_time]

/-- `export_csv`: the header row, then one row per record, accumulated in
the order the handler writes them. -/
def exportCsv (records : List AttendanceRecord) : List Char :=
  records.foldl (fun out r => out ++ csvRow (attendanceRow r)) (csvRow attendanceHeader)

/-- A row of the per-event registrations query feeding `export_event_csv`;
an empty `checkin_time` models SQL NULL (falsy in the handler's test). -/
structure EventRegRecord where
  name : List Char
  student_id : List Char
  department : List Char
  year : List Char
  registration_time : List Char
  checkin_time : List Char
  attended : Bool
deriving DecidableEq

def eventRegHeader : List (List Char) :=
  ["Student Name".data, "Student ID".data, "Department".data, "Year".data,
   "Registration Time".data, "Check-in Time".data, "Status".data]

def eventRegRow (r : EventRegRecord) : List (List Char) :=
  [r.name, r.student_id, r.department, r.year, r.registration_time,
   if r.checkin_time.isEmpty then "Not checked in".data else r.checkin_time,
   if r.attended then "Attended".data else "Registered".data]

/-- `export_event_csv`: an event-information row, a blank row, the column
header row, one row per record, a blank row, and a summary row. -/
def exportEventCsv (records : List EventRegRecord) (event : Event) : List Char :=
  csvRow ["Event:".data, event.title, "Date:".data, event.date,
          "Time:".data, event.time, "Venue:".data, event.venue]
  ++ csvRow []
  ++ csvRow eventRegHeader
  ++ records.foldl (fun out r => out ++ csvRow (eventRegRow r)) []
  ++ csvRow []
  ++ csvRow ["Summary:".data,
       "Total: ".data ++ natChars records.length,
       "Attended: ".data ++ natChars (records.filter (fun r => r.attended)).length,
       "Pending: ".data ++ natChars (records.filter (fun r => !r.attended)).length]

/-! ## Export format dispatch (src/app.py `export_attendance_all` lines
784-838, `export_pdf` lines 1272-1276) -/

inductive ExportFile where
  | csvFile
  | excelFile
  | pdfFile
deriving DecidableEq

/-- What an export call hands the user: which file format was produced and
whether a warning message was flashed. -/
structure ExportOutcome where
  file : ExportFile
  warned : Bool
deriving DecidableEq

/-- `export_pdf`: when ReportLab is absent, flash a warning and fall back
to `export_csv`. -/
def exportPdfRoute (reportlabAvailable : Bool) : ExportOutcome :=
  if reportlabAvailable then ⟨.pdfFile, false⟩ else ⟨.csvFile, true⟩

/-- The format dispatch of `export_attendance_all`: the requested tag is
lowercased; `csv`, `excel` and `pdf` go to their exporters, anything else
flashes a warning and uses CSV. -/
def exportAttendanceAll (fmtRaw : List Char) (reportlabAvailable : Bool) : ExportOutcome :=
  let fmt := pyLower fmtRaw
  if fmt == "csv".data then ⟨.csvFile, false⟩
  else if fmt == "excel".data then ⟨.excelFile, false⟩
  else if fmt == "pdf".data then exportPdfRoute reportlabAvailable
  else ⟨.csvFile, true⟩

/-! ## Shared fixtures for witnesses and counterexamples -/

def sampleStudent : Student := ⟨1, "S100".data, "Ann".data, "CS".data, "3".data⟩

def sampleEvent : Event :=
  ⟨7, "Tech Talk".data, "2024-01-01".data, "10:00".data, "Hall".data, "Org".data, 1, 0⟩

def sampleEventBig : Event :=
  ⟨7, "Tech Talk".data, "2024-01-01".data, "10:00".data, "Hall".data, "Org".data, 5, 0⟩

def sampleReg : Registration := ⟨1, 7, [], none, false⟩

/-- A store holding one registered (not yet checked-in) student. -/
def sampleDb : DB := ⟨[sampleStudent], [sampleEvent], [sampleReg]⟩

/-- A store with the student and event but no registration yet. -/
def freshDb : DB := ⟨[sampleStudent], [sampleEvent], []⟩

/-! ## General lemmas -/

/-- `find?` commutes with a map that does not change the predicate. -/
theorem find?_map_of_pred {α : Type} {g : α → α} {p : α → Bool}
    (hg : ∀ a, p (g a) = p a) (l : List α) :
    (l.map g).find? p = (l.find? p).map g := by
  induction l with
  | nil => rfl
  | cons a l ih =>
    simp only [List.map_cons]
    by_cases h : p a = true
    · rw [List.find?_cons_of_pos _ (by rw [hg]; exact h), List.find?_cons_of_pos _ h]
      rfl
    · rw [List.find?_cons_of_neg _ (by rw [hg]; exact h), List.find?_cons_of_neg _ h, ih]

/-- The fields `pairMatch` reads survive the check-in update. -/
theorem pairMatch_checkin (sid eid : Nat) (now : List Char) (r : Registration) :
    pairMatch sid eid { r with attended := true, checkin_time := some now }
      = pairMatch sid eid r := rfl

/-- The check-in row update of `verifyLookup`. -/
def checkinUpdate (sid eid : Nat) (now : List Char) (r : Registration) : Registration :=
  if pairMatch sid eid r then { r with attended := true, checkin_time := some now } else r

theorem checkinUpdate_pred (sid eid : Nat) (now : List Char) (r : Registration) :
    pairMatch sid eid (checkinUpdate sid eid now r) = pairMatch sid eid r := by
  unfold checkinUpdate
  by_cases h : pairMatch sid eid r = true
  · rw [if_pos h, pairMatch_checkin]
  · rw [if_neg h]

/-- A successful `verifyLookup` call, in closed form. -/
theorem verifyLookup_success (db : DB) (S : Student) (E : Event) (reg : Registration)
    (now : List Char)
    (hS : db.students.find? (fun s => s.student_id == S.student_id) = some S)
    (hE : db.events.find? (fun e => e.title == E.title) = some E)
    (hR : db.registrations.find? (pairMatch S.id E.id) = some reg)
    (hA : reg.attended = false) :
    verifyLookup db E.title S.student_id now =
      (VerifyResult.checkedIn S.name S.student_id E.title now,
       { db with registrations := db.registrations.map (checkinUpdate S.id E.id now) }) := by
  simp only [verifyLookup, hS, hE, hR, hA, Bool.false_eq_true, if_false]
  rfl

/-- C1: for a registration in state Registered (`attended = false`), two
sequential `verify(E.title, S.student_id)` calls behave as follows: the
first succeeds and sets `attended = true` and `checkin_time` to the
current time on that registration; the second fails with the
already-checked-in answer naming the student and leaves the store — in
particular the `attended` flag and the `checkin_time` written by the first
call — unchanged, so the Registered-to-CheckedIn transition happens at
most once via this path. -/
theorem verify_twice_idempotent (db : DB) (S : Student) (E : Event) (reg : Registration)
    (now now2 : List Char)
    (hS : db.students.find? (fun s => s.student_id == S.student_id) = some S)
    (hE : db.events.find? (fun e => e.title == E.title) = some E)
    (hR : db.registrations.find? (pairMatch S.id E.id) = some reg)
    (hA : reg.attended = false) :
    (verifyLookup db E.title S.student_id now).1
        = VerifyResult.checkedIn S.name S.student_id E.title now
    ∧ (verifyLookup db E.title S.student_id now).2.registrations.find? (pairMatch S.id E.id)
        = some { reg with attended := true, checkin_time := some now }
    ∧ (verifyLookup (verifyLookup db E.title S.student_id now).2 E.title S.student_id now2).1
        = VerifyResult.alreadyCheckedIn S.name
    ∧ (verifyLookup (verifyLookup db E.title S.student_id now).2 E.title S.student_id now2).2
        = (verifyLookup db E.title S.student_id now).2 := by
  have hmatch : pairMatch S.id E.id reg = true := List.find?_some hR
  have hstep := verifyLookup_success db S E reg now hS hE hR hA
  have hfind : (db.registrations.map (checkinUpdate S.id E.id now)).find? (pairMatch S.id E.id)
      = some { reg with attended := true, checkin_time := some now } := by
    rw [find?_map_of_pred (checkinUpdate_pred S.id E.id now), hR]
    show some (checkinUpdate S.id E.id now reg) = _
    unfold checkinUpdate
    rw [if_pos hmatch]
  refine ⟨by rw [hstep], by rw [hstep]; exact hfind, ?_, ?_⟩
  · rw [hstep]
    simp only [verifyLookup, hS, hE, hfind, if_pos]
  · rw [hstep]
    simp only [verifyLookup, hS, hE, hfind, if_pos]

/-- C1 witness: the idempotence theorem applied to the one-row sample
store, with every hypothesis discharged by evaluation. -/
theorem verify_twice_idempotent_witness :
    (verifyLookup sampleDb sampleEvent.title sampleStudent.student_id ("T1".data)).1
        = VerifyResult.checkedIn sampleStudent.name sampleStudent.student_id
            sampleEvent.title ("T1".data)
    ∧ (verifyLookup sampleDb sampleEvent.title sampleStudent.student_id
          ("T1".data)).2.registrations.find? (pairMatch sampleStudent.id sampleEvent.id)
        = some { sampleReg with attended := true, checkin_time := some ("T1".data) }
    ∧ (verifyLookup (verifyLookup sampleDb sampleEvent.title sampleStudent.student_id
          ("T1".data)).2 sampleEvent.title sampleStudent.student_id ("T2".data)).1
        = VerifyResult.alreadyCheckedIn sampleStudent.name
    ∧ (verifyLookup (verifyLookup sampleDb sampleEvent.title sampleStudent.student_id
          ("T1".data)).2 sampleEvent.title sampleStudent.student_id ("T2".data)).2
        = (verifyLookup sampleDb sampleEvent.title sampleStudent.student_id ("T1".data)).2 :=
  verify_twice_idempotent sampleDb sampleStudent sampleEvent sampleReg ("T1".data)
    ("T2".data) (by decide) (by decide) (by decide) (by decide)

/-- C10: a successful verification mutates only the `attended` and
`checkin_time` fields of the registration row matching the resolved
(student, event) pair — unique by the store's UNIQUE(student_id,event_id)
constraint: the students table, the events table (hence every
`registered_count` and `capacity`), the number of registration rows, and
every field of every non-matching registration row are unchanged, and the
matching rows keep their key and credential fields. -/
theorem verify_frame (db : DB) (S : Student) (E : Event) (reg : Registration)
    (now : List Char)
    (hS : db.students.find? (fun s => s.student_id == S.student_id) = some S)
    (hE : db.events.find? (fun e => e.title == E.title) = some E)
    (hR : db.registrations.find? (pairMatch S.id E.id) = some reg)
    (hA : reg.attended = false) :
    (verifyLookup db E.title S.student_id now).2.students = db.students
    ∧ (verifyLookup db E.title S.student_id now).2.events = db.events
    ∧ (verifyLookup db E.title S.student_id now).2.registrations.length
        = db.registrations.length
    ∧ ∀ i : Nat, ∀ r r2 : Registration, db.registrations[i]? = some r →
        (verifyLookup db E.title S.student_id now).2.registrations[i]? = some r2 →
        (r2.student_id = r.student_id ∧ r2.event_id = r.event_id
          ∧ r2.qr_code_path = r.qr_code_path)
        ∧ (pairMatch S.id E.id r = false → r2 = r)
        ∧ (pairMatch S.id E.id r = true →
             r2.attended = true ∧ r2.checkin_time = some now) := by
  have hstep := verifyLookup_success db S E reg now hS hE hR hA
  rw [hstep]
  refine ⟨rfl, rfl, by simp, ?_⟩
  intro i r r2 h1 h2
  rw [List.getElem?_map, h1] at h2
  have h3 : some (checkinUpdate S.id E.id now r) = some r2 := h2
  have h4 : checkinUpdate S.id E.id now r = r2 := Option.some.inj h3
  subst h4
  by_cases h : pairMatch S.id E.id r = true
  · unfold checkinUpdate
    rw [if_pos h]
    exact ⟨⟨rfl, rfl, rfl⟩, fun hf => absurd h (by rw [hf]; exact Bool.false_ne_true),
      fun _ => ⟨rfl, rfl⟩⟩
  · unfold checkinUpdate
    rw [if_neg h]
    exact ⟨⟨rfl, rfl, rfl⟩, fun _ => rfl, fun ht => absurd ht h⟩

/-- C10 witness: the frame theorem applied to the one-row sample store. -/
theorem verify_frame_witness :
    (verifyLookup sampleDb sampleEvent.title sampleStudent.student_id ("T1".data)).2.students
        = sampleDb.students
    ∧ (verifyLookup sampleDb sampleEvent.title sampleStudent.student_id ("T1".data)).2.events
        = sampleDb.events
    ∧ (verifyLookup sampleDb sampleEvent.title sampleStudent.student_id
        ("T1".data)).2.registrations.length = sampleDb.registrations.length
    ∧ ∀ i : Nat, ∀ r r2 : Registration, sampleDb.registrations[i]? = some r →
        (verifyLookup sampleDb sampleEvent.title sampleStudent.student_id
          ("T1".data)).2.registrations[i]? = some r2 →
        (r2.student_id = r.student_id ∧ r2.event_id = r.event_id
          ∧ r2.qr_code_path = r.qr_code_path)
        ∧ (pairMatch sampleStudent.id sampleEvent.id r = false → r2 = r)
        ∧ (pairMatch sampleStudent.id sampleEvent.id r = true →
             r2.attended = true ∧ r2.checkin_time = some ("T1".data)) :=
  verify_frame sampleDb sampleStudent sampleEvent sampleReg ("T1".data)
    (by decide) (by decide) (by decide) (by decide)

/-- The event-full branch of `register_event`, taken before the
duplicate-registration check is ever reached. -/
theorem registerEvent_atCapacity (db : DB) (E : Event) (sid event_id : Nat)
    (qrEncodeOk : Bool)
    (hE : db.events.find? (fun e => e.id == event_id) = some E)
    (hFull : E.registered_count ≥ E.capacity) :
    registerEvent db sid event_id qrEncodeOk = (RegisterResult.eventFull, db) := by
  simp only [registerEvent, hE]
  rw [if_pos hFull]

/-- The duplicate-registration branch of `register_event`. -/
theorem registerEvent_dup (db : DB) (E : Event) (r : Registration)
    (sid event_id : Nat) (qrEncodeOk : Bool)
    (hE : db.events.find? (fun e => e.id == event_id) = some E)
    (hcap : ¬ E.registered_count ≥ E.capacity)
    (hR : db.registrations.find? (pairMatch sid event_id) = some r) :
    registerEvent db sid event_id qrEncodeOk = (RegisterResult.alreadyRegistered, db) := by
  simp only [registerEvent, hE, hR]
  rw [if_neg hcap]

/-- C3: for an event at capacity (`registered_count >= capacity`, as the
code tests), `register_event` answers the event-full failure for every
student — including one already registered — and leaves the store
untouched. -/
theorem register_event_full (db : DB) (E : Event) (sid event_id : Nat)
    (qrEncodeOk : Bool)
    (hE : db.events.find? (fun e => e.id == event_id) = some E)
    (hFull : E.registered_count ≥ E.capacity) :
    registerEvent db sid event_id qrEncodeOk = (RegisterResult.eventFull, db) :=
  registerEvent_atCapacity db E sid event_id qrEncodeOk hE hFull

/-- A store whose event is at capacity and whose one student is already
registered for it. -/
def fullDb : DB :=
  ⟨[sampleStudent], [{ sampleEvent with registered_count := 1 }], [sampleReg]⟩

/-- C3 witness: the event-full theorem applied to a store at capacity,
for the student already registered for that event. -/
theorem register_event_full_witness :
    registerEvent fullDb 1 7 true
      = (RegisterResult.eventFull, fullDb) :=
  register_event_full fullDb { sampleEvent with registered_count := 1 } 1 7 true
    (by decide) (by decide)

/-- C7: when credential encoding fails during registration (the QR
library call inside the handler's `try` raises), the operation is
reported as failed — never as a success — and the store is unchanged: no
registration row is inserted and no `registered_count` is incremented.
The encoding step precedes the INSERT, so the two cannot come apart. -/
theorem register_encoding_failure_atomic (db : DB) (sid event_id : Nat) :
    (registerEvent db sid event_id false).1 ≠ RegisterResult.registered
    ∧ (registerEvent db sid event_id false).2 = db := by
  cases hE : db.events.find? (fun e => e.id == event_id) with
  | none =>
    have h : registerEvent db sid event_id false = (RegisterResult.eventNotFound, db) := by
      simp only [registerEvent, hE]
    rw [h]
    exact ⟨by simp, rfl⟩
  | some event =>
    by_cases hcap : event.registered_count ≥ event.capacity
    · have h : registerEvent db sid event_id false = (RegisterResult.eventFull, db) := by
        simp only [registerEvent, hE]
        rw [if_pos hcap]
      rw [h]
      exact ⟨by simp, rfl⟩
    · cases hr : db.registrations.find? (pairMatch sid event_id) with
      | some r =>
        have h : registerEvent db sid event_id false
            = (RegisterResult.alreadyRegistered, db) := by
          simp only [registerEvent, hE, hr]
          rw [if_neg hcap]
        rw [h]
        exact ⟨by simp, rfl⟩
      | none =>
        cases hs : db.students.find? (fun s => s.id == sid) with
        | none =>
          have h : registerEvent db sid event_id false
              = (RegisterResult.studentNotFound, db) := by
            simp only [registerEvent, hE, hr, hs]
            rw [if_neg hcap]
          rw [h]
          exact ⟨by simp, rfl⟩
        | some student =>
          have h : registerEvent db sid event_id false
              = (RegisterResult.qrGenerationError, db) := by
            simp only [registerEvent, hE, hr, hs, Bool.false_eq_true, if_false]
            rw [if_neg hcap]
          rw [h]
          exact ⟨by simp, rfl⟩

/-- C9: the export dispatch lowercases the requested tag; a tag outside
csv/excel/pdf falls back to CSV output with a flashed warning rather than
an error, and the pdf tag with the ReportLab backend unavailable also
degrades to CSV with a warning; concretely, the unknown tag `XML` and the
tag `PDF` without a backend both produce a warned CSV download. -/
theorem export_format_fallback (fmtRaw : List Char) (reportlabAvailable : Bool) :
    (pyLower fmtRaw ≠ "csv".data → pyLower fmtRaw ≠ "excel".data →
       pyLower fmtRaw ≠ "pdf".data →
       exportAttendanceAll fmtRaw reportlabAvailable = ⟨ExportFile.csvFile, true⟩)
    ∧ (pyLower fmtRaw = "pdf".data → reportlabAvailable = false →
       exportAttendanceAll fmtRaw reportlabAvailable = ⟨ExportFile.csvFile, true⟩)
    ∧ exportAttendanceAll ("XML".data) reportlabAvailable = ⟨ExportFile.csvFile, true⟩
    ∧ exportAttendanceAll ("PDF".data) false = ⟨ExportFile.csvFile, true⟩ := by
  refine ⟨?_, ?_, by cases reportlabAvailable <;> decide, by decide⟩
  · intro h1 h2 h3
    have g1 : (pyLower fmtRaw == "csv".data) = false := beq_eq_false_iff_ne.mpr h1
    have g2 : (pyLower fmtRaw == "excel".data) = false := beq_eq_false_iff_ne.mpr h2
    have g3 : (pyLower fmtRaw == "pdf".data) = false := beq_eq_false_iff_ne.mpr h3
    simp only [exportAttendanceAll, g1, g2, g3, Bool.false_eq_true, if_false]
  · intro h1 h2
    have g1 : (pyLower fmtRaw == "csv".data) = false := by rw [h1]; rfl
    have g2 : (pyLower fmtRaw == "excel".data) = false := by rw [h1]; rfl
    have g3 : (pyLower fmtRaw == "pdf".data) = true := by rw [h1]; rfl
    simp only [exportAttendanceAll, g1, g2, g3, Bool.false_eq_true, if_false, if_pos,
      exportPdfRoute, h2]

/-- The `registered_count` increment that `register_event` issues
(`UPDATE events SET registered_count = registered_count + 1 WHERE id = %s`). -/
def capacityInc (event_id : Nat) (e : Event) : Event :=
  if e.id == event_id then { e with registered_count := e.registered_count + 1 } else e

theorem capacityInc_pred (event_id : Nat) (e : Event) :
    ((capacityInc event_id e).id == event_id) = (e.id == event_id) := by
  unfold capacityInc
  by_cases h : (e.id == event_id) = true
  · rw [if_pos h]
  · rw [if_neg h]

/-- A successful `register_event` call, in closed form. -/
theorem registerEvent_success (db : DB) (S : Student) (E : Event) (event_id : Nat)
    (hS : db.students.find? (fun s => s.id == S.id) = some S)
    (hE : db.events.find? (fun e => e.id == event_id) = some E)
    (hFree : E.registered_count < E.capacity)
    (hNoReg : db.registrations.find? (pairMatch S.id event_id) = none) :
    registerEvent db S.id event_id true =
      (RegisterResult.registered,
       { db with
          registrations := db.registrations
            ++ [⟨S.id, event_id, encodeCredential S E event_id, none, false⟩],
          events := db.events.map (capacityInc event_id) }) := by
  simp only [registerEvent, hE, hNoReg, hS]
  rw [if_neg (not_le.mpr hFree)]
  simp only [if_true]
  rfl

/-- C2 counterexample: the claim as stated fails on a capacity-1 event.
The first registration succeeds and fills the event; the second call for
the same student then answers the event-full failure, not the
already-registered failure, because the capacity check precedes the
duplicate-registration check. -/
theorem register_twice_counterexample :
    (registerEvent freshDb 1 7 true).1 = RegisterResult.registered
    ∧ (registerEvent (registerEvent freshDb 1 7 true).2 1 7 true).1
        ≠ RegisterResult.alreadyRegistered
    ∧ (registerEvent (registerEvent freshDb 1 7 true).2 1 7 true).1
        = RegisterResult.eventFull := by decide

/-- C2 amended: calling `register_event` twice for the same student and
an event with free capacity succeeds exactly once and raises
`registered_count` by exactly 1; the second call changes nothing and
fails — with the already-registered failure when the event still has
free capacity after the first registration, and with the event-full
failure when the first registration filled it (the capacity check runs
before the duplicate-registration check). -/
theorem register_twice_amended (db : DB) (S : Student) (E : Event) (event_id : Nat)
    (hS : db.students.find? (fun s => s.id == S.id) = some S)
    (hE : db.events.find? (fun e => e.id == event_id) = some E)
    (hFree : E.registered_count < E.capacity)
    (hNoReg : db.registrations.find? (pairMatch S.id event_id) = none) :
    (registerEvent db S.id event_id true).1 = RegisterResult.registered
    ∧ (registerEvent db S.id event_id true).2.events.find? (fun e => e.id == event_id)
        = some { E with registered_count := E.registered_count + 1 }
    ∧ (registerEvent (registerEvent db S.id event_id true).2 S.id event_id true).1
        = (if E.registered_count + 1 ≥ E.capacity then RegisterResult.eventFull
           else RegisterResult.alreadyRegistered)
    ∧ (registerEvent (registerEvent db S.id event_id true).2 S.id event_id true).2
        = (registerEvent db S.id event_id true).2 := by
  have hstep := registerEvent_success db S E event_id hS hE hFree hNoReg
  have hEid := List.find?_some hE
  have hfindE : (registerEvent db S.id event_id true).2.events.find?
      (fun e => e.id == event_id)
      = some { E with registered_count := E.registered_count + 1 } := by
    rw [hstep]
    show (db.events.map (capacityInc event_id)).find? (fun e => e.id == event_id) = _
    rw [find?_map_of_pred (fun e => capacityInc_pred event_id e), hE]
    show some (capacityInc event_id E) = _
    unfold capacityInc
    rw [if_pos hEid]
  have hfindR : (registerEvent db S.id event_id true).2.registrations.find?
      (pairMatch S.id event_id)
      = some ⟨S.id, event_id, encodeCredential S E event_id, none, false⟩ := by
    rw [hstep]
    show (db.registrations
        ++ [(⟨S.id, event_id, encodeCredential S E event_id, none, false⟩ : Registration)]).find?
        (pairMatch S.id event_id) = _
    rw [List.find?_append, hNoReg]
    show List.find? (pairMatch S.id event_id)
        [(⟨S.id, event_id, encodeCredential S E event_id, none, false⟩ : Registration)] = _
    rw [List.find?_cons_of_pos _ (by simp [pairMatch])]
  by_cases h2 : E.registered_count + 1 ≥ E.capacity
  · have hsecond := registerEvent_atCapacity (registerEvent db S.id event_id true).2
      { E with registered_count := E.registered_count + 1 } S.id event_id true hfindE h2
    exact ⟨by rw [hstep], hfindE, by rw [hsecond, if_pos h2], by rw [hsecond]⟩
  · have hsecond := registerEvent_dup (registerEvent db S.id event_id true).2
      { E with registered_count := E.registered_count + 1 }
      ⟨S.id, event_id, encodeCredential S E event_id, none, false⟩
      S.id event_id true hfindE h2 hfindR
    exact ⟨by rw [hstep], hfindE, by rw [hsecond, if_neg h2], by rw [hsecond]⟩

/-- A store with one student and a capacity-5 event, no registrations. -/
def bigDb : DB := ⟨[sampleStudent], [sampleEventBig], []⟩

/-- C2 witness: the amended theorem applied to the capacity-5 store,
where the second call indeed answers the already-registered failure. -/
theorem register_twice_amended_witness :
    (registerEvent bigDb sampleStudent.id 7 true).1 = RegisterResult.registered
    ∧ (registerEvent bigDb sampleStudent.id 7 true).2.events.find?
          (fun e => e.id == 7)
        = some { sampleEventBig with
            registered_count := sampleEventBig.registered_count + 1 }
    ∧ (registerEvent (registerEvent bigDb sampleStudent.id 7 true).2
          sampleStudent.id 7 true).1
        = (if sampleEventBig.registered_count + 1 ≥ sampleEventBig.capacity
           then RegisterResult.eventFull else RegisterResult.alreadyRegistered)
    ∧ (registerEvent (registerEvent bigDb sampleStudent.id 7 true).2
          sampleStudent.id 7 true).2
        = (registerEvent bigDb sampleStudent.id 7 true).2 :=
  register_twice_amended bigDb sampleStudent sampleEventBig 7
    (by decide) (by decide) (by decide) (by decide)

/-- The empty store. -/
def emptyDb : DB := ⟨[], [], []⟩

/-- A store with two events sharing the title of the sample event. -/
def dupTitleDb : DB :=
  ⟨[sampleStudent], [sampleEvent, { sampleEventBig with id := 8 }], [sampleReg]⟩

/-- C5 counterexample: the claim as stated fails twice over. On the empty
store — where the credential's event title matches zero events and the
student identifier is also unresolvable — verification answers the
student-not-found failure, not event-not-found; and on a store with two
events sharing the scanned title, verification does not fail at all: it
resolves the first matching event and checks the student in. -/
theorem verify_resolution_counterexample :
    (verifyLookup emptyDb ("Tech Talk".data) ("S100".data) ("T1".data)).1
        = VerifyResult.studentNotFound
    ∧ (verifyLookup emptyDb ("Tech Talk".data) ("S100".data) ("T1".data)).1
        ≠ VerifyResult.eventNotFound
    ∧ (verifyLookup dupTitleDb ("Tech Talk".data) ("S100".data) ("T1".data)).1
        ≠ VerifyResult.eventNotFound
    ∧ (verifyLookup dupTitleDb ("Tech Talk".data) ("S100".data) ("T1".data)).1
        = VerifyResult.checkedIn ("Ann".data) ("S100".data) ("Tech Talk".data)
            ("T1".data) := by decide

/-- C5 amended: verification resolves the student by exact external
identifier first and fails student-not-found when that lookup is empty —
even when the event title is unresolvable too; with the student resolved,
it fails event-not-found exactly when no event bears the scanned title,
an ambiguous title silently resolving to the first matching row; and on
every non-success answer the store is left unchanged. -/
theorem verify_resolution_amended (db : DB) (t sid now : List Char) :
    (db.students.find? (fun s => s.student_id == sid) = none →
        verifyLookup db t sid now = (VerifyResult.studentNotFound, db))
    ∧ (∀ S : Student, db.students.find? (fun s => s.student_id == sid) = some S →
        db.events.find? (fun e => e.title == t) = none →
        verifyLookup db t sid now = (VerifyResult.eventNotFound, db))
    ∧ (∀ res : VerifyResult, ∀ db2 : DB, verifyLookup db t sid now = (res, db2) →
        (∀ a b c d : List Char, res ≠ VerifyResult.checkedIn a b c d) → db2 = db) := by
  refine ⟨?_, ?_, ?_⟩
  · intro h
    simp only [verifyLookup, h]
  · intro S hS hE
    simp only [verifyLookup, hS, hE]
  · intro res db2 h hne
    cases hS : db.students.find? (fun s => s.student_id == sid) with
    | none =>
      have hv : verifyLookup db t sid now = (VerifyResult.studentNotFound, db) := by
        simp only [verifyLookup, hS]
      rw [hv] at h
      injection h with h1 h2
      exact h2.symm
    | some S =>
      cases hE : db.events.find? (fun e => e.title == t) with
      | none =>
        have hv : verifyLookup db t sid now = (VerifyResult.eventNotFound, db) := by
          simp only [verifyLookup, hS, hE]
        rw [hv] at h
        injection h with h1 h2
        exact h2.symm
      | some E =>
        cases hR : db.registrations.find? (pairMatch S.id E.id) with
        | none =>
          have hv : verifyLookup db t sid now = (VerifyResult.notRegistered, db) := by
            simp only [verifyLookup, hS, hE, hR]
          rw [hv] at h
          injection h with h1 h2
          exact h2.symm
        | some reg =>
          by_cases hA : reg.attended = true
          · have hv : verifyLookup db t sid now
                = (VerifyResult.alreadyCheckedIn S.name, db) := by
              simp only [verifyLookup, hS, hE, hR]
              rw [if_pos hA]
            rw [hv] at h
            injection h with h1 h2
            exact h2.symm
          · have hv : verifyLookup db t sid now
                = (VerifyResult.checkedIn S.name S.student_id E.title now,
                   { db with registrations :=
                       db.registrations.map (checkinUpdate S.id E.id now) }) := by
              simp only [verifyLookup, hS, hE, hR]
              rw [if_neg hA]
              rfl
            rw [hv] at h
            injection h with h1 h2
            exact absurd h1.symm (hne S.name S.student_id E.title now)

/-- C6: the credential parser splits the stripped payload on newlines,
splits each line on its first colon, trims key and value, and builds a
mapping, ignoring lines without a colon and any key other than the two
required ones; concretely, the documented payload yields exactly the
mapping Event to Tech Talk and Student ID to S100 and parses
successfully, an extra `Foo: Bar` line changes nothing, a payload missing
the Student ID key is rejected as invalid, and in general parsing fails
if and only if the Event entry or the Student ID entry of the mapping is
absent or empty after trimming. -/
theorem parse_credential_spec :
    buildDict ("Event: Tech Talk\nStudent ID: S100\n".data)
        = [("Event".data, "Tech Talk".data), ("Student ID".data, "S100".data)]
    ∧ parseCredential ("Event: Tech Talk\nStudent ID: S100\n".data)
        = some ⟨"Tech Talk".data, "S100".data⟩
    ∧ parseCredential ("Event: Tech Talk\n".data) = none
    ∧ parseCredential ("Event: Tech Talk\nFoo: Bar\nStudent ID: S100\n".data)
        = some ⟨"Tech Talk".data, "S100".data⟩
    ∧ (∀ qr : List Char, parseCredential qr = none ↔
        (credLookup (buildDict qr) keyEvent = []
          ∨ credLookup (buildDict qr) keyStudentId = [])) := by
  refine ⟨by decide, by decide, by decide, by decide, ?_⟩
  intro qr
  show (if (credLookup (buildDict qr) keyEvent).isEmpty
          || (credLookup (buildDict qr) keyStudentId).isEmpty then none
        else some (⟨credLookup (buildDict qr) keyEvent,
                    credLookup (buildDict qr) keyStudentId⟩ : Credential)) = none
      ↔ (credLookup (buildDict qr) keyEvent = []
          ∨ credLookup (buildDict qr) keyStudentId = [])
  cases hA : credLookup (buildDict qr) keyEvent with
  | nil => simp
  | cons a as =>
    cases hB : credLookup (buildDict qr) keyStudentId with
    | nil => simp
    | cons b bs => simp

/-! ## CSV structure lemmas (C8) -/

/-- Writing rows one after another is the header plus the flattened rows. -/
theorem foldl_append_rows {α : Type} (f : α → List Char) :
    ∀ (l : List α) (init : List Char),
      l.foldl (fun out r => out ++ f r) init = init ++ (l.map f).flatten
  | [], init => by simp
  | r :: rs, init => by
    simp only [List.foldl_cons, List.map_cons, List.flatten_cons]
    rw [foldl_append_rows f rs (init ++ f r), List.append_assoc]

/-- Quote doubling introduces no character besides the quote itself. -/
theorem mem_csvEscape {c : Char} {f : List Char}
    (h : c ∈ f.foldr (fun c acc => if c = '"' then '"' :: '"' :: acc else c :: acc) []) :
    c ∈ f ∨ c = '"' := by
  induction f with
  | nil => exact absurd h (List.not_mem_nil c)
  | cons a as ih =>
    simp only [List.foldr_cons] at h
    by_cases ha : a = '"'
    · rw [if_pos ha] at h
      rcases List.mem_cons.mp h with h1 | h1
      · exact Or.inr h1
      · rcases List.mem_cons.mp h1 with h2 | h2
        · exact Or.inr h2
        · rcases ih h2 with h3 | h3
          · exact Or.inl (List.mem_cons_of_mem a h3)
          · exact Or.inr h3
    · rw [if_neg ha] at h
      rcases List.mem_cons.mp h with h1 | h1
      · exact Or.inl (by rw [h1]; exact List.mem_cons_self a as)
      · rcases ih h1 with h2 | h2
        · exact Or.inl (List.mem_cons_of_mem a h2)
        · exact Or.inr h2

/-- A rendered CSV field only holds characters of the field or quotes. -/
theorem mem_csvField {c : Char} {f : List Char} (h : c ∈ csvField f) :
    c ∈ f ∨ c = '"' := by
  unfold csvField at h
  by_cases hq : needsQuote f = true
  · rw [if_pos hq] at h
    unfold csvQuote at h
    rcases List.mem_cons.mp h with h1 | h1
    · exact Or.inr h1
    · rcases List.mem_append.mp h1 with h2 | h2
      · exact mem_csvEscape h2
      · exact Or.inr (List.mem_singleton.mp h2)
  · rw [if_neg hq] at h
    exact Or.inl h

/-- A character of a separator-joined list comes from the separator or
from one of the pieces. -/
theorem mem_sepJoin {c : Char} {sep : List Char} :
    ∀ {xs : List (List Char)}, c ∈ sepJoin sep xs → c ∈ sep ∨ ∃ x ∈ xs, c ∈ x
  | [], h => absurd h (List.not_mem_nil c)
  | [x], h => Or.inr ⟨x, List.mem_singleton.mpr rfl, h⟩
  | x :: y :: xs, h => by
    unfold sepJoin at h
    rcases List.mem_append.mp h with h1 | h1
    · rcases List.mem_append.mp h1 with h2 | h2
      · exact Or.inr ⟨x, List.mem_cons_self x (y :: xs), h2⟩
      · exact Or.inl h2
    · rcases mem_sepJoin h1 with h2 | ⟨z, hz, hcz⟩
      · exact Or.inl h2
      · exact Or.inr ⟨z, List.mem_cons_of_mem x hz, hcz⟩

/-- A CSV row over fields free of CR and LF holds exactly one newline,
the one of its CRLF terminator. -/
theorem count_nl_csvRow (fields : List (List Char))
    (h : ∀ f ∈ fields, '\r' ∉ f ∧ '\n' ∉ f) :
    (csvRow fields).count '\n' = 1 := by
  unfold csvRow
  rw [List.count_append]
  have hbody : '\n' ∉ sepJoin (",".data) (fields.map csvField) := by
    intro hmem
    rcases mem_sepJoin hmem with h1 | ⟨x, hx, hcx⟩
    · exact absurd h1 (by decide)
    · rcases List.mem_map.mp hx with ⟨f, hf, rfl⟩
      rcases mem_csvField hcx with h2 | h2
      · exact (h f hf).2 h2
      · exact absurd h2 (by decide)
  rw [List.count_eq_zero.mpr hbody]
  decide

/-- One newline per written row, over a whole record list. -/
theorem count_nl_rows (records : List AttendanceRecord)
    (h : ∀ r ∈ records, ∀ f ∈ attendanceRow r, '\r' ∉ f ∧ '\n' ∉ f) :
    ((records.map (fun r => csvRow (attendanceRow r))).flatten).count '\n'
      = records.length := by
  induction records with
  | nil => rfl
  | cons r rs ih =>
    simp only [List.map_cons, List.flatten_cons, List.count_append]
    rw [count_nl_csvRow (attendanceRow r) (h r (List.mem_cons_self r rs)),
      ih (fun r2 hr2 => h r2 (List.mem_cons_of_mem r hr2)), List.length_cons]
    exact Nat.add_comm 1 rs.length

/-- C8 amended: `export_csv` output is comma-delimited with the
column-header row first, followed by one CRLF-terminated row per record —
its first byte is the `S` of `Student Name`, not a byte-order mark, which
the code never writes — and `export_event_csv` puts the event-information
row first, before its column-header row. -/
theorem export_csv_structure_amended (records : List AttendanceRecord) :
    exportCsv records
        = csvRow attendanceHeader
          ++ (records.map (fun r => csvRow (attendanceRow r))).flatten
    ∧ (exportCsv records).head? = some 'S'
    ∧ (exportCsv records).head? ≠ some '\uFEFF'
    ∧ ((∀ r ∈ records, ∀ f ∈ attendanceRow r, '\r' ∉ f ∧ '\n' ∉ f) →
        (exportCsv records).count '\n' = records.length + 1)
    ∧ ∀ recs : List EventRegRecord, ∀ ev : Event,
        (exportEventCsv recs ev).take 7 = "Event:,".data := by
  have hstruct : exportCsv records
      = csvRow attendanceHeader
        ++ (records.map (fun r => csvRow (attendanceRow r))).flatten :=
    foldl_append_rows (fun r => csvRow (attendanceRow r)) records (csvRow attendanceHeader)
  have hhead : (exportCsv records).head? = some 'S' := by rw [hstruct]; rfl
  refine ⟨hstruct, hhead, by rw [hhead]; decide, ?_, ?_⟩
  · intro h
    rw [hstruct, List.count_append, count_nl_rows records h,
      count_nl_csvRow attendanceHeader (by decide)]
    omega
  · intro recs ev
    obtain ⟨z, hz⟩ : ∃ z, exportEventCsv recs ev = "Event:,".data ++ z := ⟨_, rfl⟩
    rw [hz]
    exact List.take_left' (by decide)

/-- The attendance record used by concrete export evaluations. -/
def sampleAttRecord : AttendanceRecord :=
  ⟨"Ann".data, "S100".data, "CS".data, "3".data, "Tech Talk".data,
   "2024-01-01".data, "10:00".data, "Hall".data, "R1".data, "C1".data⟩

/-- C8 counterexample: the claim as stated fails on concrete input. No
byte-order mark is ever written — the exports of an empty and of a
one-record list both start with the `S` of the header — and the first row
of `export_event_csv` is the event-information row, not the column-header
row. -/
theorem export_csv_bom_counterexample :
    (exportCsv []).head? = some 'S'
    ∧ (exportCsv []).head? ≠ some '\uFEFF'
    ∧ (exportCsv [sampleAttRecord]).head? ≠ some '\uFEFF'
    ∧ (exportEventCsv [] sampleEvent).take 12 ≠ "Student Name".data
    ∧ (exportEventCsv [] sampleEvent).take 7 = "Event:,".data := by decide

/-! ## String lemmas for the credential round trip (C4) -/

theorem append_ne_nil_right {α : Type} {a b : List α} (hb : b ≠ []) : a ++ b ≠ [] := by
  intro hcon
  exact hb (List.append_eq_nil.mp hcon).2

theorem no_nl_append {a b : List Char} (ha : ∀ c ∈ a, c ≠ '\n')
    (hb : ∀ c ∈ b, c ≠ '\n') : ∀ c ∈ a ++ b, c ≠ '\n' :=
  fun c hc => (List.mem_append.mp hc).elim (ha c) (hb c)

theorem splitNl_of_no_nl (a : List Char) (h : ∀ c ∈ a, c ≠ '\n') : splitNl a = [a] := by
  induction a with
  | nil => rfl
  | cons c cs ih =>
    simp only [splitNl]
    rw [if_neg (h c (List.mem_cons_self c cs)),
      ih (fun x hx => h x (List.mem_cons_of_mem c hx))]

theorem splitNl_append (a b : List Char) (h : ∀ c ∈ a, c ≠ '\n') :
    splitNl (a ++ '\n' :: b) = a :: splitNl b := by
  induction a with
  | nil =>
    show splitNl ('\n' :: b) = [] :: splitNl b
    simp only [splitNl]
    simp
  | cons c cs ih =>
    show splitNl (c :: (cs ++ '\n' :: b)) = (c :: cs) :: splitNl b
    simp only [splitNl]
    rw [if_neg (h c (List.mem_cons_self c cs)),
      ih (fun x hx => h x (List.mem_cons_of_mem c hx))]

theorem splitFirst_append (sep : Char) (a b : List Char) (h : ∀ c ∈ a, c ≠ sep) :
    splitFirst sep (a ++ sep :: b) = some (a, b) := by
  induction a with
  | nil =>
    show splitFirst sep (sep :: b) = some ([], b)
    simp only [splitFirst]
    simp
  | cons c cs ih =>
    show splitFirst sep (c :: (cs ++ sep :: b)) = some (c :: cs, b)
    simp only [splitFirst]
    rw [if_neg (h c (List.mem_cons_self c cs)),
      ih (fun x hx => h x (List.mem_cons_of_mem c hx))]
    rfl

theorem pyStrip_cons_space (c : Char) (s : List Char) (h : isPySpace c = true) :
    pyStrip (c :: s) = pyStrip s := by
  unfold pyStrip pyStripLeft
  rw [List.dropWhile_cons_of_pos h]

theorem pyStripLeft_append_of (a b : List Char) (ha : pyStripLeft a = a) (hane : a ≠ []) :
    pyStripLeft (a ++ b) = a ++ b := by
  cases a with
  | nil => exact absurd rfl hane
  | cons c a2 =>
    have hc : isPySpace c = false := by
      cases hx : isPySpace c
      · rfl
      · exfalso
        have h1 : pyStripLeft (c :: a2) = pyStripLeft a2 := by
          unfold pyStripLeft
          rw [List.dropWhile_cons_of_pos hx]
        rw [ha] at h1
        have h2 : (pyStripLeft a2).length ≤ a2.length :=
          (List.dropWhile_sublist isPySpace).length_le
        rw [← h1, List.length_cons] at h2
        omega
    show pyStripLeft (c :: (a2 ++ b)) = (c :: a2) ++ b
    unfold pyStripLeft
    rw [List.dropWhile_cons_of_neg (by rw [hc]; exact Bool.false_ne_true)]
    rfl

theorem pyStripRight_append_spaces (s t : List Char) (h : ∀ c ∈ t, isPySpace c = true) :
    pyStripRight (s ++ t) = pyStripRight s := by
  unfold pyStripRight
  rw [List.reverse_append,
    List.dropWhile_append_of_pos (fun c hc => h c (List.mem_reverse.mp hc))]

theorem pyStripRight_concat (s : List Char) (d : Char) (h : isPySpace d = false) :
    pyStripRight (s ++ [d]) = s ++ [d] := by
  unfold pyStripRight
  rw [List.reverse_append]
  show ((d :: s.reverse).dropWhile isPySpace).reverse = s ++ [d]
  rw [List.dropWhile_cons_of_neg (by rw [h]; exact Bool.false_ne_true)]
  simp

theorem pyStripRight_append_of (a b : List Char) (hb : pyStripRight b = b)
    (hbne : b ≠ []) : pyStripRight (a ++ b) = a ++ b := by
  obtain ⟨b2, d, hbd⟩ := (List.eq_nil_or_concat' b).resolve_left hbne
  subst hbd
  have hd : isPySpace d = false := by
    cases hx : isPySpace d
    · rfl
    · exfalso
      have h1 : pyStripRight (b2 ++ [d]) = pyStripRight b2 :=
        pyStripRight_append_spaces b2 [d]
          (fun c hc => by rw [List.mem_singleton.mp hc]; exact hx)
      rw [hb] at h1
      have h2 : (pyStripRight b2).length ≤ b2.length := by
        unfold pyStripRight
        rw [List.length_reverse]
        calc (b2.reverse.dropWhile isPySpace).length
            ≤ b2.reverse.length := (List.dropWhile_sublist isPySpace).length_le
          _ = b2.length := List.length_reverse b2
      rw [← h1, List.length_append] at h2
      simp at h2
  rw [← List.append_assoc]
  exact pyStripRight_concat (a ++ b2) d hd

/-! ## Decimal digits of `natChars` (C4) -/

/-- The characters `natChars` emits are decimal digits. -/
def isDigitCh (c : Char) : Prop := 48 ≤ c.toNat ∧ c.toNat ≤ 57

theorem digitChar_digit (n : Nat) : isDigitCh (digitChar n) := by
  unfold digitChar isDigitCh
  have h : n % 10 < 10 := Nat.mod_lt _ (by norm_num)
  set k := n % 10 with hk
  interval_cases k <;> decide

theorem digit_not_special {c : Char} (h : isDigitCh c) : isPySpace c = false ∧ c ≠ '\n' := by
  obtain ⟨h1, h2⟩ := h
  have hne : ∀ d : Char, d.toNat < 48 → c ≠ d := by
    intro d hd e
    rw [e] at h1
    omega
  constructor
  · unfold isPySpace
    rw [beq_eq_false_iff_ne.mpr (hne ' ' (by decide)),
      beq_eq_false_iff_ne.mpr (hne '\t' (by decide)),
      beq_eq_false_iff_ne.mpr (hne '\n' (by decide)),
      beq_eq_false_iff_ne.mpr (hne '\r' (by decide)),
      beq_eq_false_iff_ne.mpr (hne '\x0B' (by decide)),
      beq_eq_false_iff_ne.mpr (hne '\x0C' (by decide))]
    rfl
  · exact hne '\n' (by decide)

theorem natCharsAux_digits : ∀ (fuel n : Nat) (acc : List Char),
    (∀ c ∈ acc, isDigitCh c) → ∀ c ∈ natCharsAux fuel n acc, isDigitCh c := by
  intro fuel
  induction fuel with
  | zero => exact fun n acc hacc c hc => hacc c hc
  | succ fuel ih =>
    intro n acc hacc c hc
    unfold natCharsAux at hc
    by_cases h : n < 10
    · rw [if_pos h] at hc
      rcases List.mem_cons.mp hc with h1 | h1
      · rw [h1]; exact digitChar_digit n
      · exact hacc c h1
    · rw [if_neg h] at hc
      refine ih (n / 10) (digitChar n :: acc) (fun x hx => ?_) c hc
      rcases List.mem_cons.mp hx with h2 | h2
      · rw [h2]; exact digitChar_digit n
      · exact hacc x h2

theorem natChars_digits (n : Nat) : ∀ c ∈ natChars n, isDigitCh c :=
  natCharsAux_digits (n + 1) n []
    (fun c hc => absurd hc (List.not_mem_nil c))

theorem natCharsAux_append : ∀ (fuel n : Nat) (acc : List Char),
    ∃ pre, natCharsAux fuel n acc = pre ++ acc := by
  intro fuel
  induction fuel with
  | zero => exact fun n acc => ⟨[], rfl⟩
  | succ fuel ih =>
    intro n acc
    unfold natCharsAux
    by_cases h : n < 10
    · rw [if_pos h]
      exact ⟨[digitChar n], rfl⟩
    · rw [if_neg h]
      obtain ⟨pre, hp⟩ := ih (n / 10) (digitChar n :: acc)
      refine ⟨pre ++ [digitChar n], ?_⟩
      rw [hp, List.append_assoc]
      rfl

theorem natChars_ne_nil (n : Nat) : natChars n ≠ [] := by
  unfold natChars natCharsAux
  by_cases h : n < 10
  · rw [if_pos h]
    exact List.cons_ne_nil _ _
  · rw [if_neg h]
    obtain ⟨pre, hp⟩ := natCharsAux_append n (n / 10) [digitChar n]
    rw [hp]
    simp

theorem natChars_no_nl (n : Nat) : ∀ c ∈ natChars n, c ≠ '\n' :=
  fun c hc => (digit_not_special (natChars_digits n c hc)).2

theorem pyStripRight_natChars (n : Nat) : pyStripRight (natChars n) = natChars n := by
  obtain ⟨pre, d, hp⟩ :=
    (List.eq_nil_or_concat' (natChars n)).resolve_left (natChars_ne_nil n)
  have hd : isDigitCh d := natChars_digits n d
    (by rw [hp]; exact List.mem_append_right _ (List.mem_singleton.mpr rfl))
  rw [hp]
  exact pyStripRight_concat pre d (digit_not_special hd).1

/-! ## Dict lookup through insertion (C4) -/

theorem find_replace {k v : List Char} : ∀ (d : List (List Char × List Char)),
    d.any (fun p => p.1 == k) = true →
    ((d.map (fun p => if p.1 == k then (k, v) else p)).find? (fun p => p.1 == k))
      = some (k, v) := by
  intro d
  induction d with
  | nil => intro h; simp at h
  | cons a d ih =>
    intro h
    by_cases ha : (a.1 == k) = true
    · simp only [List.map_cons, if_pos ha]
      exact List.find?_cons_of_pos _ (by simp)
    · simp only [List.map_cons, if_neg ha]
      have hstep : List.find? (fun p => p.1 == k)
          (a :: List.map (fun p => if p.1 == k then (k, v) else p) d)
          = List.find? (fun p => p.1 == k)
            (List.map (fun p => if p.1 == k then (k, v) else p) d) :=
        List.find?_cons_of_neg _ ha
      rw [hstep]
      apply ih
      rcases List.any_eq_true.mp h with ⟨x, hx, hpx⟩
      rcases List.mem_cons.mp hx with h3 | h3
      · exact absurd (h3 ▸ hpx) ha
      · exact List.any_eq_true.mpr ⟨x, h3, hpx⟩

theorem dictGet_dictInsert_self (d : List (List Char × List Char)) (k v k' : List Char)
    (h : (k' == k) = true) : dictGet (dictInsert d k v) k' = some v := by
  have hk : k' = k := eq_of_beq h
  subst hk
  unfold dictInsert
  by_cases hmem : d.any (fun p => p.1 == k') = true
  · rw [if_pos hmem]
    unfold dictGet
    rw [find_replace d hmem]
    rfl
  · rw [if_neg hmem]
    unfold dictGet
    rw [List.find?_append]
    have hnone : d.find? (fun p => p.1 == k') = none := by
      rw [List.find?_eq_none]
      intro x hx hpx
      exact hmem (List.any_eq_true.mpr ⟨x, hx, hpx⟩)
    rw [hnone]
    show (List.find? (fun p => p.1 == k') [(k', v)]).map (fun p => p.2) = some v
    have hstep : List.find? (fun p => p.1 == k') [(k', v)] = some (k', v) :=
      List.find?_cons_of_pos _ (by simp)
    rw [hstep]
    rfl

theorem dictGet_dictInsert_ne (d : List (List Char × List Char)) (k v k' : List Char)
    (h : (k' == k) = false) : dictGet (dictInsert d k v) k' = dictGet d k' := by
  have hk : k' ≠ k := beq_eq_false_iff_ne.mp h
  unfold dictInsert
  by_cases hmem : d.any (fun p => p.1 == k) = true
  · rw [if_pos hmem]
    unfold dictGet
    have hpres : ∀ a : List Char × List Char,
        (fun p : List Char × List Char => p.1 == k')
          ((fun p : List Char × List Char => if p.1 == k then (k, v) else p) a)
        = (fun p : List Char × List Char => p.1 == k') a := by
      intro a
      by_cases ha : (a.1 == k) = true
      · simp only [if_pos ha]
        rw [eq_of_beq ha]
      · simp only [if_neg ha]
    rw [find?_map_of_pred hpres d]
    cases hf : d.find? (fun p => p.1 == k') with
    | none => rfl
    | some p =>
      have hp := List.find?_some hf
      have hp2 : (p.1 == k) = false := by
        apply beq_eq_false_iff_ne.mpr
        intro e
        exact hk (by rw [← eq_of_beq hp, e])
      show some ((if p.1 == k then (k, v) else p).2) = some p.2
      rw [if_neg (by rw [hp2]; exact Bool.false_ne_true)]
  · rw [if_neg hmem]
    unfold dictGet
    rw [List.find?_append]
    have hkk : ((k, v).1 == k') = false := by
      show (k == k') = false
      exact beq_eq_false_iff_ne.mpr (fun e => hk e.symm)
    cases hf : d.find? (fun p => p.1 == k') with
    | none =>
      rw [List.find?_cons_of_neg _ (by rw [hkk]; exact Bool.false_ne_true)]
      rfl
    | some p => rfl

/-- The round trip, assembled: with the seven payload lines named by
defining equations, stripping the encoded payload yields exactly the
seven-line block, splitting and folding build the dict, and the two
required keys look up to the original title and student identifier. -/
theorem roundtrip_assembled (t n sid d tm v : List Char) (eid : Nat)
    (L1 R2 R3 R4 R5 R6 R7 REST P : List Char)
    (hL1 : L1 = "Event: ".data ++ t)
    (hR2 : R2 = "Student: ".data ++ n)
    (hR3 : R3 = "Student ID: ".data ++ sid)
    (hR4 : R4 = "Event Date: ".data ++ d)
    (hR5 : R5 = "Event Time: ".data ++ tm)
    (hR6 : R6 = "Venue: ".data ++ v)
    (hR7 : R7 = "Registration ID: ".data ++ (sid ++ ("_".data ++ natChars eid)))
    (hREST : REST = '\n' :: (R2 ++ '\n' :: (R3 ++ '\n' :: (R4 ++ '\n' ::
        (R5 ++ '\n' :: (R6 ++ '\n' :: R7))))))
    (hP : P = L1 ++ REST)
    (ht1 : t ≠ []) (ht2 : pyStrip t = t) (ht3 : ∀ c ∈ t, c ≠ '\n')
    (hs1 : sid ≠ []) (hs2 : pyStrip sid = sid) (hs3 : ∀ c ∈ sid, c ≠ '\n')
    (hn : ∀ c ∈ n, c ≠ '\n') (hd : ∀ c ∈ d, c ≠ '\n')
    (htm : ∀ c ∈ tm, c ≠ '\n') (hv : ∀ c ∈ v, c ≠ '\n') :
    parseCredential (pyStrip ("\n".data ++ "Event: ".data ++ t
      ++ "\n".data ++ "Student: ".data ++ n
      ++ "\n".data ++ "Student ID: ".data ++ sid
      ++ "\n".data ++ "Event Date: ".data ++ d
      ++ "\n".data ++ "Event Time: ".data ++ tm
      ++ "\n".data ++ "Venue: ".data ++ v
      ++ "\n".data ++ "Registration ID: ".data ++ sid ++ "_".data ++ natChars eid
      ++ "\n        ".data))
    = some ⟨t, sid⟩ := by
  -- the raw payload in terms of the named lines
  have e1 : ("\n".data : List Char) = ['\n'] := rfl
  have e2 : ("\n        ".data : List Char) = '\n' :: "        ".data := rfl
  have hraw : ("\n".data ++ "Event: ".data ++ t
      ++ "\n".data ++ "Student: ".data ++ n
      ++ "\n".data ++ "Student ID: ".data ++ sid
      ++ "\n".data ++ "Event Date: ".data ++ d
      ++ "\n".data ++ "Event Time: ".data ++ tm
      ++ "\n".data ++ "Venue: ".data ++ v
      ++ "\n".data ++ "Registration ID: ".data ++ sid ++ "_".data ++ natChars eid
      ++ "\n        ".data)
      = '\n' :: (P ++ ('\n' :: "        ".data)) := by
    rw [hP, hREST, hL1, hR2, hR3, hR4, hR5, hR6, hR7, e1, e2]
    simp [List.append_assoc]
  -- trailing-strip invariance of the payload, innermost out
  have k7 : pyStripRight (natChars eid) = natChars eid := pyStripRight_natChars eid
  have k7n : natChars eid ≠ [] := natChars_ne_nil eid
  have k6 := pyStripRight_append_of ("_".data) (natChars eid) k7 k7n
  have k6n : "_".data ++ natChars eid ≠ [] := append_ne_nil_right k7n
  have k5 := pyStripRight_append_of sid ("_".data ++ natChars eid) k6 k6n
  have k5n : sid ++ ("_".data ++ natChars eid) ≠ [] := append_ne_nil_right k6n
  have k4 : pyStripRight R7 = R7 := by
    rw [hR7]
    exact pyStripRight_append_of ("Registration ID: ".data) _ k5 k5n
  have k4n : R7 ≠ [] := by rw [hR7]; exact append_ne_nil_right k5n
  have c7 : pyStripRight ('\n' :: R7) = '\n' :: R7 :=
    pyStripRight_append_of ['\n'] R7 k4 k4n
  have c7n : ('\n' :: R7 : List Char) ≠ [] := List.cons_ne_nil _ _
  have k3 := pyStripRight_append_of R6 ('\n' :: R7) c7 c7n
  have k3n : R6 ++ '\n' :: R7 ≠ [] := append_ne_nil_right c7n
  have c6 : pyStripRight ('\n' :: (R6 ++ '\n' :: R7)) = '\n' :: (R6 ++ '\n' :: R7) :=
    pyStripRight_append_of ['\n'] _ k3 k3n
  have c6n : ('\n' :: (R6 ++ '\n' :: R7) : List Char) ≠ [] := List.cons_ne_nil _ _
  have k2 := pyStripRight_append_of R5 _ c6 c6n
  have k2n : R5 ++ '\n' :: (R6 ++ '\n' :: R7) ≠ [] := append_ne_nil_right c6n
  have c5 : pyStripRight ('\n' :: (R5 ++ '\n' :: (R6 ++ '\n' :: R7)))
      = '\n' :: (R5 ++ '\n' :: (R6 ++ '\n' :: R7)) :=
    pyStripRight_append_of ['\n'] _ k2 k2n
  have c5n : ('\n' :: (R5 ++ '\n' :: (R6 ++ '\n' :: R7)) : List Char) ≠ [] :=
    List.cons_ne_nil _ _
  have k1 := pyStripRight_append_of R4 _ c5 c5n
  have k1n : R4 ++ '\n' :: (R5 ++ '\n' :: (R6 ++ '\n' :: R7)) ≠ [] :=
    append_ne_nil_right c5n
  have c4 : pyStripRight ('\n' :: (R4 ++ '\n' :: (R5 ++ '\n' :: (R6 ++ '\n' :: R7))))
      = '\n' :: (R4 ++ '\n' :: (R5 ++ '\n' :: (R6 ++ '\n' :: R7))) :=
    pyStripRight_append_of ['\n'] _ k1 k1n
  have c4n : ('\n' :: (R4 ++ '\n' :: (R5 ++ '\n' :: (R6 ++ '\n' :: R7))) : List Char)
      ≠ [] := List.cons_ne_nil _ _
  have k0 := pyStripRight_append_of R3 _ c4 c4n
  have k0n : R3 ++ '\n' :: (R4 ++ '\n' :: (R5 ++ '\n' :: (R6 ++ '\n' :: R7))) ≠ [] :=
    append_ne_nil_right c4n
  have c3 : pyStripRight ('\n' :: (R3 ++ '\n' :: (R4 ++ '\n' ::
        (R5 ++ '\n' :: (R6 ++ '\n' :: R7)))))
      = '\n' :: (R3 ++ '\n' :: (R4 ++ '\n' :: (R5 ++ '\n' :: (R6 ++ '\n' :: R7)))) :=
    pyStripRight_append_of ['\n'] _ k0 k0n
  have c3n : ('\n' :: (R3 ++ '\n' :: (R4 ++ '\n' :: (R5 ++ '\n' ::
      (R6 ++ '\n' :: R7)))) : List Char) ≠ [] := List.cons_ne_nil _ _
  have km1 := pyStripRight_append_of R2 _ c3 c3n
  have km1n : R2 ++ '\n' :: (R3 ++ '\n' :: (R4 ++ '\n' :: (R5 ++ '\n' ::
      (R6 ++ '\n' :: R7)))) ≠ [] := append_ne_nil_right c3n
  have cREST : pyStripRight REST = REST := by
    rw [hREST]
    exact pyStripRight_append_of ['\n'] _ km1 km1n
  have cRESTn : REST ≠ [] := by rw [hREST]; exact List.cons_ne_nil _ _
  have kP : pyStripRight P = P := by
    rw [hP]
    exact pyStripRight_append_of L1 REST cREST cRESTn
  -- stripping the encoded payload gives exactly P
  have hHead : P ++ ('\n' :: "        ".data)
      = "Event: ".data ++ ((t ++ REST) ++ ('\n' :: "        ".data)) := by
    rw [hP, hL1]
    simp [List.append_assoc]
  have hstripP : pyStrip (P ++ ('\n' :: "        ".data)) = P := by
    show pyStripRight (pyStripLeft (P ++ ('\n' :: "        ".data))) = P
    rw [hHead,
      pyStripLeft_append_of ("Event: ".data) ((t ++ REST) ++ ('\n' :: "        ".data))
        (by decide) (by decide),
      ← hHead,
      pyStripRight_append_spaces P ('\n' :: "        ".data) (by decide), kP]
  have hHead2 : P = "Event: ".data ++ (t ++ REST) := by
    rw [hP, hL1, List.append_assoc]
  have hstripP2 : pyStrip P = P := by
    show pyStripRight (pyStripLeft P) = P
    rw [hHead2,
      pyStripLeft_append_of ("Event: ".data) (t ++ REST) (by decide) (by decide),
      ← hHead2, kP]
  -- splitting P into its seven lines
  have hnl1 : ∀ c ∈ L1, c ≠ '\n' := by
    rw [hL1]; exact no_nl_append (by decide) ht3
  have hnl2 : ∀ c ∈ R2, c ≠ '\n' := by
    rw [hR2]; exact no_nl_append (by decide) hn
  have hnl3 : ∀ c ∈ R3, c ≠ '\n' := by
    rw [hR3]; exact no_nl_append (by decide) hs3
  have hnl4 : ∀ c ∈ R4, c ≠ '\n' := by
    rw [hR4]; exact no_nl_append (by decide) hd
  have hnl5 : ∀ c ∈ R5, c ≠ '\n' := by
    rw [hR5]; exact no_nl_append (by decide) htm
  have hnl6 : ∀ c ∈ R6, c ≠ '\n' := by
    rw [hR6]; exact no_nl_append (by decide) hv
  have hnl7 : ∀ c ∈ R7, c ≠ '\n' := by
    rw [hR7]
    exact no_nl_append (by decide)
      (no_nl_append hs3 (no_nl_append (by decide) (natChars_no_nl eid)))
  have hsplit : splitNl P = [L1, R2, R3, R4, R5, R6, R7] := by
    rw [hP, hREST, splitNl_append L1 _ hnl1, splitNl_append R2 _ hnl2,
      splitNl_append R3 _ hnl3, splitNl_append R4 _ hnl4, splitNl_append R5 _ hnl5,
      splitNl_append R6 _ hnl6, splitNl_of_no_nl R7 hnl7]
  -- splitting each line at its first colon
  have hsh1 : L1 = "Event".data ++ ':' :: (' ' :: t) := by rw [hL1]; rfl
  have hsh2 : R2 = "Student".data ++ ':' :: (' ' :: n) := by rw [hR2]; rfl
  have hsh3 : R3 = "Student ID".data ++ ':' :: (' ' :: sid) := by rw [hR3]; rfl
  have hsh4 : R4 = "Event Date".data ++ ':' :: (' ' :: d) := by rw [hR4]; rfl
  have hsh5 : R5 = "Event Time".data ++ ':' :: (' ' :: tm) := by rw [hR5]; rfl
  have hsh6 : R6 = "Venue".data ++ ':' :: (' ' :: v) := by rw [hR6]; rfl
  have hsh7 : R7 = "Registration ID".data
      ++ ':' :: (' ' :: (sid ++ ("_".data ++ natChars eid))) := by rw [hR7]; rfl
  have hsf1 : splitFirst ':' L1 = some ("Event".data, ' ' :: t) := by
    rw [hsh1]; exact splitFirst_append ':' ("Event".data) _ (by decide)
  have hsf2 : splitFirst ':' R2 = some ("Student".data, ' ' :: n) := by
    rw [hsh2]; exact splitFirst_append ':' ("Student".data) _ (by decide)
  have hsf3 : splitFirst ':' R3 = some ("Student ID".data, ' ' :: sid) := by
    rw [hsh3]; exact splitFirst_append ':' ("Student ID".data) _ (by decide)
  have hsf4 : splitFirst ':' R4 = some ("Event Date".data, ' ' :: d) := by
    rw [hsh4]; exact splitFirst_append ':' ("Event Date".data) _ (by decide)
  have hsf5 : splitFirst ':' R5 = some ("Event Time".data, ' ' :: tm) := by
    rw [hsh5]; exact splitFirst_append ':' ("Event Time".data) _ (by decide)
  have hsf6 : splitFirst ':' R6 = some ("Venue".data, ' ' :: v) := by
    rw [hsh6]; exact splitFirst_append ':' ("Venue".data) _ (by decide)
  have hsf7 : splitFirst ':' R7
      = some ("Registration ID".data, ' ' :: (sid ++ ("_".data ++ natChars eid))) := by
    rw [hsh7]; exact splitFirst_append ':' ("Registration ID".data) _ (by decide)
  -- stripped keys and the two stripped values the lookups read
  have hk1 : pyStrip ("Event".data) = "Event".data := by decide
  have hk2 : pyStrip ("Student".data) = "Student".data := by decide
  have hk3 : pyStrip ("Student ID".data) = "Student ID".data := by decide
  have hk4 : pyStrip ("Event Date".data) = "Event Date".data := by decide
  have hk5 : pyStrip ("Event Time".data) = "Event Time".data := by decide
  have hk6 : pyStrip ("Venue".data) = "Venue".data := by decide
  have hk7 : pyStrip ("Registration ID".data) = "Registration ID".data := by decide
  have hv1 : pyStrip (' ' :: t) = t := by
    rw [pyStrip_cons_space ' ' t (by decide)]; exact ht2
  have hv3 : pyStrip (' ' :: sid) = sid := by
    rw [pyStrip_cons_space ' ' sid (by decide)]; exact hs2
  -- the dict built by the fold
  have hfold : buildDict P
      = dictInsert (dictInsert (dictInsert (dictInsert (dictInsert (dictInsert
          (dictInsert [] ("Event".data) t)
          ("Student".data) (pyStrip (' ' :: n)))
          ("Student ID".data) sid)
          ("Event Date".data) (pyStrip (' ' :: d)))
          ("Event Time".data) (pyStrip (' ' :: tm)))
          ("Venue".data) (pyStrip (' ' :: v)))
          ("Registration ID".data)
          (pyStrip (' ' :: (sid ++ ("_".data ++ natChars eid)))) := by
    unfold buildDict
    rw [hstripP2, hsplit]
    simp only [List.foldl_cons, List.foldl_nil, hsf1, hsf2, hsf3, hsf4, hsf5, hsf6,
      hsf7, hk1, hk2, hk3, hk4, hk5, hk6, hk7, hv1, hv3]
  -- the two lookups
  have hne7 : (keyEvent == "Registration ID".data) = false := by decide
  have hne6 : (keyEvent == "Venue".data) = false := by decide
  have hne5 : (keyEvent == "Event Time".data) = false := by decide
  have hne4 : (keyEvent == "Event Date".data) = false := by decide
  have hne3 : (keyEvent == "Student ID".data) = false := by decide
  have hne2 : (keyEvent == "Student".data) = false := by decide
  have heq1 : (keyEvent == "Event".data) = true := by decide
  have hget1 : credLookup (buildDict P) keyEvent = t := by
    rw [hfold]
    unfold credLookup
    rw [dictGet_dictInsert_ne _ _ _ _ hne7, dictGet_dictInsert_ne _ _ _ _ hne6,
      dictGet_dictInsert_ne _ _ _ _ hne5, dictGet_dictInsert_ne _ _ _ _ hne4,
      dictGet_dictInsert_ne _ _ _ _ hne3, dictGet_dictInsert_ne _ _ _ _ hne2,
      dictGet_dictInsert_self _ _ _ _ heq1]
    rfl
  have sne7 : (keyStudentId == "Registration ID".data) = false := by decide
  have sne6 : (keyStudentId == "Venue".data) = false := by decide
  have sne5 : (keyStudentId == "Event Time".data) = false := by decide
  have sne4 : (keyStudentId == "Event Date".data) = false := by decide
  have seq3 : (keyStudentId == "Student ID".data) = true := by decide
  have hget2 : credLookup (buildDict P) keyStudentId = sid := by
    rw [hfold]
    unfold credLookup
    rw [dictGet_dictInsert_ne _ _ _ _ sne7, dictGet_dictInsert_ne _ _ _ _ sne6,
      dictGet_dictInsert_ne _ _ _ _ sne5, dictGet_dictInsert_ne _ _ _ _ sne4,
      dictGet_dictInsert_self _ _ _ _ seq3]
    rfl
  -- assemble
  rw [hraw, pyStrip_cons_space '\n' (P ++ ('\n' :: "        ".data)) (by decide),
    hstripP]
  show (if (credLookup (buildDict P) keyEvent).isEmpty
        || (credLookup (buildDict P) keyStudentId).isEmpty then none
      else some (⟨credLookup (buildDict P) keyEvent,
                  credLookup (buildDict P) keyStudentId⟩ : Credential))
      = some ⟨t, sid⟩
  rw [hget1, hget2]
  have et : t.isEmpty = false := by
    cases t with
    | nil => exact absurd rfl ht1
    | cons a as => rfl
  have es : sid.isEmpty = false := by
    cases sid with
    | nil => exact absurd rfl hs1
    | cons a as => rfl
  rw [et, es]
  rfl

/-- The sample event with a trailing space in its title. -/
def spacedEvent : Event :=
  ⟨7, "Tech Talk ".data, "2024-01-01".data, "10:00".data, "Hall".data, "Org".data, 1, 0⟩

/-- C4 counterexample: the round trip fails as universally stated. For a
title with a trailing space the parser's trimming hands back the trimmed
title, not the original one. -/
theorem credential_roundtrip_counterexample :
    parseCredential (encodeCredential sampleStudent spacedEvent spacedEvent.id)
        ≠ some ⟨spacedEvent.title, sampleStudent.student_id⟩
    ∧ parseCredential (encodeCredential sampleStudent spacedEvent spacedEvent.id)
        = some ⟨"Tech Talk".data, "S100".data⟩ := by decide

/-- C4 amended: parsing the credential text produced by encoding recovers
exactly (E.title, S.student_id) under the keys Event and Student ID,
provided the interpolated fields (title, name, student id, date, time,
venue) contain no newline and the title and student id are nonempty and
unchanged by whitespace trimming; otherwise the recovered values can
differ (trimmed or truncated). -/
theorem credential_roundtrip_amended (S : Student) (E : Event)
    (ht1 : E.title ≠ []) (ht2 : pyStrip E.title = E.title)
    (ht3 : ∀ c ∈ E.title, c ≠ '\n')
    (hs1 : S.student_id ≠ []) (hs2 : pyStrip S.student_id = S.student_id)
    (hs3 : ∀ c ∈ S.student_id, c ≠ '\n')
    (hn : ∀ c ∈ S.name, c ≠ '\n') (hd : ∀ c ∈ E.date, c ≠ '\n')
    (htm : ∀ c ∈ E.time, c ≠ '\n') (hv : ∀ c ∈ E.venue, c ≠ '\n') :
    parseCredential (encodeCredential S E E.id)
      = some ⟨E.title, S.student_id⟩ :=
  roundtrip_assembled E.title S.name S.student_id E.date E.time E.venue E.id
    _ _ _ _ _ _ _ _ _ rfl rfl rfl rfl rfl rfl rfl rfl rfl
    ht1 ht2 ht3 hs1 hs2 hs3 hn hd htm hv

/-- C4 witness: the amended round trip applied to the sample student and
event, every side condition discharged by evaluation. -/
theorem credential_roundtrip_witness :
    parseCredential (encodeCredential sampleStudent sampleEvent sampleEvent.id)
      = some ⟨sampleEvent.title, sampleStudent.student_id⟩ :=
  credential_roundtrip_amended sampleStudent sampleEvent
    (by decide) (by decide) (by decide) (by decide) (by decide) (by decide)
    (by decide) (by decide) (by decide) (by decide)

end CollegeEventApp
